import Mathlib

/-!
Shallow embedding of the flow-controlled dispatch pipeline of the `load`
package (scan.go / duplex_channel.go): the duplex channel, the two
outstanding-work ledger operations `sendOrQueueBatch` and
`sendOutstandingBatchToWorker`, and the dispatcher loop `scanWithIndexer`.

Modelling conventions:
* A Go `Batch` is abstracted by a type parameter for the ledger operations
  (the code never inspects it); for the dispatcher loop a Batch is modelled
  as the list of points appended into it, so `Len() = List.length`, matching
  the contract that each `Append` grows the size by one.
* The bounded channel `toWorker` is represented by its capacity `queueLen`,
  the full ordered log `sent` of every Batch ever placed on it (oldest
  first), and the number `consumed` of Batches the worker has received.
  The live buffer is `sent.drop consumed`, so `len(ch.toWorker)` is
  `sent.length - consumed` and `cap(ch.toWorker)` is `queueLen`.
* The Go `int` counter of outstanding batches is an unbounded `Int`
  (the program never gets near overflow, and the tests drive it to -1).
* The nondeterministic `reflect.Select` over the acknowledgment channels is
  driven by an explicit environment schedule: `none` means the default
  branch was taken (only legal while `ocnt < olimit`), `some i` means an
  acknowledgment was received from lane `i`.  A schedule the code cannot
  follow (a blocking wait that is never answered) yields `stuck`, which
  models blocking forever; a Go `panic` yields `panicked`.
-/

namespace Load

/-- Model of `duplexChannel` (duplex_channel.go): the `toWorker` side of the
bounded channel, kept as capacity plus send history plus worker-consumed
count.  The `toScanner` acknowledgment channel carries no payload and is
modelled by the environment schedule instead. -/
structure DuplexChannel (α : Type) where
  queueLen : Nat
  sent : List α
  consumed : Nat
deriving DecidableEq

/-- `createDuplexChannel` (duplex_channel.go lines 13-18): builds the channel
with the given buffer size.  Go's `make(chan T, n)` panics when `n` is
negative (modelled as `none`) and accepts `n = 0` (an unbuffered channel);
there is no validation in the source. -/
def createDuplexChannel (α : Type) (queueLen : Int) : Option (DuplexChannel α) :=
  if queueLen < 0 then none
  else some ⟨queueLen.toNat, [], 0⟩

/-- Current number of batches sitting in the `toWorker` buffer,
Go's `len(ch.toWorker)`. -/
def DuplexChannel.toWorkerLen (ch : DuplexChannel α) : Nat :=
  ch.sent.length - ch.consumed

/-- `duplexChannel.sendToWorker` (duplex_channel.go lines 21-23): places a
batch on the `toWorker` channel. -/
def DuplexChannel.sendToWorker (ch : DuplexChannel α) (b : α) : DuplexChannel α :=
  { ch with sent := ch.sent ++ [b] }

/-- The worker receives one batch from the `toWorker` buffer (external to the
scanner code; needed to model executions in which the worker drains the
channel between scanner steps). -/
def DuplexChannel.workerRecv (ch : DuplexChannel α) : DuplexChannel α :=
  { ch with consumed := ch.consumed + 1 }

/-- `sendOutstandingBatchToWorker` (scan.go lines 11-22), translated
literally: decrement the outstanding count, and if the unsent queue is
non-empty send its head and drop it (`unsent[1:]` and `unsent[:0]` both
shorten the singleton case to the empty list).  Returns the updated
channel, count and unsent queue. -/
def sendOutstandingBatchToWorker (ch : DuplexChannel α) (count : Int) (unsent : List α) :
    DuplexChannel α × Int × List α :=
  let count := count - 1
  match unsent with
  | [] => (ch, count, [])
  | b :: rest => (ch.sendToWorker b, count, rest)

/-- `sendOrQueueBatch` (scan.go lines 27-37), translated literally: increment
the outstanding count unconditionally; if there are no queued batches and
`len(ch.toWorker) < cap(ch.toWorker)` send the batch now, otherwise append
it to the queue. -/
def sendOrQueueBatch (ch : DuplexChannel α) (count : Int) (batch : α)
    (outstandingBatches : List α) : DuplexChannel α × Int × List α :=
  let count := count + 1
  if outstandingBatches.length = 0 ∧ ch.toWorkerLen < ch.queueLen then
    (ch.sendToWorker batch, count, outstandingBatches)
  else
    (ch, count, outstandingBatches ++ [batch])

/-- `ConstantIndexer.GetIndex` (scan.go lines 70-72): every point goes to
lane 0. -/
def ConstantIndexer.GetIndex {α : Type} (_p : α) : Nat := 0

/-! ### Single-lane ledger traces

The admit/release operations of one lane, as they are interleaved by the
dispatcher: `admitOp b` is a call to `sendOrQueueBatch` (an admit), `release` a call to
`sendOutstandingBatchToWorker`, and `consume` a receive performed by the
worker (which only affects the `len < cap` test of later admits). -/

/-- One event on a lane. -/
inductive LedgerOp (α : Type) where
  | admitOp (b : α)
  | release
  | consume
deriving DecidableEq

/-- A lane's dispatcher-owned state: its channel, the global outstanding
count, and its pending (`outstandingBatches`) queue. -/
structure LedgerState (α : Type) where
  ch : DuplexChannel α
  count : Int
  pending : List α
deriving DecidableEq

/-- The state of a lane as created by the dispatcher: a fresh channel of
capacity `cap`, count zero, nothing pending. -/
def initLedger (α : Type) (cap : Nat) : LedgerState α :=
  ⟨⟨cap, [], 0⟩, 0, []⟩

/-- Apply one event to a lane state, via the two source functions. -/
def ledgerStep (s : LedgerState α) : LedgerOp α → LedgerState α
  | .admitOp b =>
      let r := sendOrQueueBatch s.ch s.count b s.pending
      ⟨r.1, r.2.1, r.2.2⟩
  | .release =>
      let r := sendOutstandingBatchToWorker s.ch s.count s.pending
      ⟨r.1, r.2.1, r.2.2⟩
  | .consume =>
      if 0 < s.ch.toWorkerLen then ⟨s.ch.workerRecv, s.count, s.pending⟩ else s

/-- Run a trace of events on a lane. -/
def runLedger (s : LedgerState α) (t : List (LedgerOp α)) : LedgerState α :=
  t.foldl ledgerStep s

/-- The batches admitted by a trace, in admission order. -/
def admittedList : List (LedgerOp α) → List α
  | [] => []
  | .admitOp b :: t => b :: admittedList t
  | .release :: t => admittedList t
  | .consume :: t => admittedList t

/-- Number of admits in a trace. -/
def admitCount (t : List (LedgerOp α)) : Nat :=
  t.countP fun op => match op with | .admitOp _ => true | _ => false

/-- Number of releases in a trace. -/
def releaseCount (t : List (LedgerOp α)) : Nat :=
  t.countP fun op => match op with | .release => true | _ => false

/-! ### The dispatcher loop `scanWithIndexer` (scan.go lines 90-195)

A Batch is the list of points appended into it; `factory.New()` is the
empty list; the input stream together with `decoder.Decode` is the list of
points still to be decoded (`Decode` returns `nil` once it is empty). -/

/-- Per-lane state of the dispatcher: the lane's channel (`channels[i]`),
its in-progress batch (`batches[i]`) and its pending queue
(`outstandingBatches[i]`). -/
structure ScanLaneState (α : Type) where
  ch : DuplexChannel (List α)
  batch : List α
  outstanding : List (List α)
deriving DecidableEq

/-- Result of Phase A (the ingestion loop): the ordinary exit carries the
lane states, the outstanding count and `itemsRead`; `stuck` models a wait
the schedule never answers (blocking forever); `panicked` models a Go
panic (index out of range). -/
inductive PhaseAResult (α : Type) where
  | done (lanes : List (ScanLaneState α)) (ocnt : Int) (itemsRead : Nat)
  | stuck
  | panicked
deriving DecidableEq

/-- Outcome of the whole of `scanWithIndexer`. -/
inductive ScanOutcome (α : Type) where
  | ok (itemsRead : Nat) (lanes : List (ScanLaneState α))
  | stuck
  | panicked
deriving DecidableEq

/-- Receiving an acknowledgment from lane `i` applies
`sendOutstandingBatchToWorker` to that lane (scan.go lines 145-147 and
188-191); `none` when `i` is not a lane index (the environment cannot
produce such an event). -/
def applyRelease (lanes : List (ScanLaneState α)) (ocnt : Int) (i : Nat) :
    Option (List (ScanLaneState α) × Int) :=
  match lanes[i]? with
  | none => none
  | some lane =>
      let r := sendOutstandingBatchToWorker lane.ch ocnt lane.outstanding
      some (lanes.set i ⟨r.1, lane.batch, r.2.2⟩, r.2.1)

/-- One `reflect.Select` step of Phase A (scan.go lines 138-147): when the
outstanding count has reached `olimit` the default case is excluded, so the
schedule may not answer `none` there. -/
def selectStep (lanes : List (ScanLaneState α)) (ocnt olimit : Int) (ev : Option Nat) :
    Option (List (ScanLaneState α) × Int) :=
  match ev with
  | none => if olimit ≤ ocnt then none else some (lanes, ocnt)
  | some i => applyRelease lanes ocnt i

/-- Phase A, the main loop of scan.go lines 131-168: each iteration checks
the item limit, performs one select (consuming one schedule entry), decodes
one point (breaking on end of input), appends it to its lane's batch and,
when the batch has reached `batchSize`, admits it via `sendOrQueueBatch`
and starts a fresh batch. -/
def phaseA (batchSize limit : Nat) (ixr : α → Nat) (olimit : Int)
    (lanes : List (ScanLaneState α)) (ocnt : Int) (itemsRead : Nat)
    (input : List α) (sched : List (Option Nat)) : PhaseAResult α :=
  if limit > 0 ∧ itemsRead = limit then .done lanes ocnt itemsRead
  else
    match sched with
    | [] => .stuck
    | ev :: schedRest =>
      match selectStep lanes ocnt olimit ev with
      | none => .stuck
      | some (lanes1, ocnt1) =>
        match input with
        | [] => .done lanes1 ocnt1 itemsRead
        | item :: rest =>
          let idx := ixr item
          match lanes1[idx]? with
          | none => .panicked
          | some lane =>
            let newBatch := lane.batch ++ [item]
            if batchSize ≤ newBatch.length then
              let r := sendOrQueueBatch lane.ch ocnt1 newBatch lane.outstanding
              phaseA batchSize limit ixr olimit (lanes1.set idx ⟨r.1, [], r.2.2⟩)
                r.2.1 (itemsRead + 1) rest schedRest
            else
              phaseA batchSize limit ixr olimit
                (lanes1.set idx ⟨lane.ch, newBatch, lane.outstanding⟩)
                ocnt1 (itemsRead + 1) rest schedRest

/-- The final-flush loop of scan.go lines 172-177: admit every lane's
in-progress batch that holds at least one item; empty batches are skipped
(the source does not reset `batches[idx]` here, and neither do we). -/
def flushLoop : List (ScanLaneState α) → Int → List (ScanLaneState α) × Int
  | [], ocnt => ([], ocnt)
  | lane :: rest, ocnt =>
    if 0 < lane.batch.length then
      let r := sendOrQueueBatch lane.ch ocnt lane.batch lane.outstanding
      let res := flushLoop rest r.2.1
      (⟨r.1, lane.batch, r.2.2⟩ :: res.1, res.2)
    else
      let res := flushLoop rest ocnt
      (lane :: res.1, res.2)

/-- Specification-side description of what the flush loop does to one lane:
admit the in-progress batch exactly when it is non-empty.  The channel and
queue updates of `sendOrQueueBatch` do not depend on the count argument, so
the count can be threaded separately (see `flushLoop_spec`). -/
def flushOne (lane : ScanLaneState α) : ScanLaneState α :=
  if 0 < lane.batch.length then
    let r := sendOrQueueBatch lane.ch 0 lane.batch lane.outstanding
    ⟨r.1, lane.batch, r.2.2⟩
  else lane

/-- Number of lanes whose in-progress batch is non-empty. -/
def nonemptyBatchCount (lanes : List (ScanLaneState α)) : Nat :=
  lanes.countP fun lane => 0 < lane.batch.length

/-- Result of the drain loop. -/
inductive DrainResult (α : Type) where
  | done (lanes : List (ScanLaneState α))
  | stuck
deriving DecidableEq

/-- Phase B drain loop of scan.go lines 181-192: while the outstanding count
is non-zero, block on the acknowledgment channels (no default case) and
release whichever lane answers; each answer consumes one schedule entry. -/
def drainLoop : List (ScanLaneState α) → Int → List Nat → DrainResult α
  | lanes, ocnt, sched =>
    if ocnt = 0 then .done lanes
    else
      match sched with
      | [] => .stuck
      | i :: rest =>
        match applyRelease lanes ocnt i with
        | none => .stuck
        | some (lanes1, ocnt1) => drainLoop lanes1 ocnt1 rest

/-- The outstanding-batch limit of scan.go line 130:
`numChannels * cap(channels[0].toWorker) * 3`. -/
def olimitOf (channels : List (DuplexChannel β)) : Int :=
  (channels.length : Int) *
    ((match channels.head? with
      | some ch => ch.queueLen
      | none => 0 : Nat) : Int) * 3

/-- `scanWithIndexer` (scan.go lines 90-195): panic when `batchSize < 1`
(line 94) or when there is no lane (line 130 indexes `channels[0]`);
otherwise run Phase A from fresh per-lane state, flush the trailing partial
batches, drain until the outstanding count is zero, and return the number
of items read. -/
def scanWithIndexer (channels : List (DuplexChannel (List α))) (batchSize limit : Nat)
    (input : List α) (ixr : α → Nat)
    (schedA : List (Option Nat)) (schedB : List Nat) : ScanOutcome α :=
  if batchSize < 1 then .panicked
  else
    match channels with
    | [] => .panicked
    | _ :: _ =>
      let lanes := channels.map fun ch => (⟨ch, [], []⟩ : ScanLaneState α)
      match phaseA batchSize limit ixr (olimitOf channels) lanes 0 0 input schedA with
      | .done lanes1 ocnt1 itemsRead =>
        let fl := flushLoop lanes1 ocnt1
        match drainLoop fl.1 fl.2 schedB with
        | .done lanes2 => .ok itemsRead lanes2
        | .stuck => .stuck
      | .stuck => .stuck
      | .panicked => .panicked

/-! ### Basic facts about the two ledger operations -/

/-- `sendOrQueueBatch` bumps the count by one on both of its paths. -/
theorem sendOrQueueBatch_count (ch : DuplexChannel α) (c : Int) (b : α) (q : List α) :
    (sendOrQueueBatch ch c b q).2.1 = c + 1 := by
  simp only [sendOrQueueBatch]
  split <;> rfl

/-- `sendOutstandingBatchToWorker` drops the count by one on both paths. -/
theorem sendOutstandingBatchToWorker_count (ch : DuplexChannel α) (c : Int) (unsent : List α) :
    (sendOutstandingBatchToWorker ch c unsent).2.1 = c - 1 := by
  simp only [sendOutstandingBatchToWorker]
  cases unsent <;> rfl

/-- The channel and queue produced by `sendOrQueueBatch` do not depend on the
count argument. -/
theorem sendOrQueueBatch_count_free (ch : DuplexChannel α) (c : Int) (b : α) (q : List α) :
    (sendOrQueueBatch ch c b q).1 = (sendOrQueueBatch ch 0 b q).1
    ∧ (sendOrQueueBatch ch c b q).2.2 = (sendOrQueueBatch ch 0 b q).2.2 := by
  simp only [sendOrQueueBatch]
  split <;> simp

/-! ### Ledger trace lemmas -/

/-- One step preserves the order invariant: the concatenation of the send log
and the pending queue grows exactly by the batches the event admits. -/
theorem ledgerStep_sent_pending (s : LedgerState α) (op : LedgerOp α) :
    (ledgerStep s op).ch.sent ++ (ledgerStep s op).pending
      = s.ch.sent ++ s.pending ++ admittedList [op] := by
  cases op with
  | admitOp b =>
    simp only [ledgerStep, sendOrQueueBatch, admittedList]
    split
    · next h =>
        have hp : s.pending = [] := List.length_eq_zero.mp h.1
        simp [DuplexChannel.sendToWorker, hp]
    · next h => simp
  | release =>
    simp only [ledgerStep, sendOutstandingBatchToWorker, admittedList]
    cases hp : s.pending with
    | nil => simp [hp]
    | cons b rest => simp [hp, DuplexChannel.sendToWorker]
  | consume =>
    simp only [ledgerStep, admittedList]
    split <;> simp [DuplexChannel.workerRecv]

/-- `admittedList` distributes over the head of a trace. -/
theorem admittedList_cons (op : LedgerOp α) (t : List (LedgerOp α)) :
    admittedList (op :: t) = admittedList [op] ++ admittedList t := by
  cases op <;> simp [admittedList]

/-- Order invariant over a whole trace: the send log followed by the pending
queue is the initial contents followed by the admitted batches in admission
order. -/
theorem runLedger_sent_pending (t : List (LedgerOp α)) (s : LedgerState α) :
    (runLedger s t).ch.sent ++ (runLedger s t).pending
      = (s.ch.sent ++ s.pending) ++ admittedList t := by
  induction t generalizing s with
  | nil => simp [runLedger, admittedList]
  | cons op t ih =>
    have h1 : runLedger s (op :: t) = runLedger (ledgerStep s op) t := rfl
    rw [h1, ih, ledgerStep_sent_pending,
      show admittedList (op :: t) = admittedList [op] ++ admittedList t from
        admittedList_cons op t]
    simp [List.append_assoc]

/-- One step changes the count by (admits − releases) of the event. -/
theorem ledgerStep_count (s : LedgerState α) (op : LedgerOp α) :
    (ledgerStep s op).count
      = s.count + (admitCount [op] : Int) - (releaseCount [op] : Int) := by
  cases op with
  | admitOp b =>
    have : (ledgerStep s (.admitOp b)).count
        = (sendOrQueueBatch s.ch s.count b s.pending).2.1 := rfl
    rw [this, sendOrQueueBatch_count]
    simp [admitCount, releaseCount]
  | release =>
    have : (ledgerStep s .release).count
        = (sendOutstandingBatchToWorker s.ch s.count s.pending).2.1 := rfl
    rw [this, sendOutstandingBatchToWorker_count]
    simp [admitCount, releaseCount]
  | consume =>
    simp only [ledgerStep]
    split <;> simp [admitCount, releaseCount, DuplexChannel.workerRecv]

/-- The count after a trace is the initial count plus admits minus releases. -/
theorem runLedger_count (t : List (LedgerOp α)) (s : LedgerState α) :
    (runLedger s t).count = s.count + (admitCount t : Int) - (releaseCount t : Int) := by
  induction t generalizing s with
  | nil => simp [runLedger, admitCount, releaseCount]
  | cons op t ih =>
    have h1 : runLedger s (op :: t) = runLedger (ledgerStep s op) t := rfl
    rw [h1, ih, ledgerStep_count]
    cases op <;>
      simp [admitCount, releaseCount, List.countP_cons] <;> omega

/-! ### Scan-loop lemmas -/

/-- The final-flush loop admits exactly the non-empty in-progress batches:
lane-wise it acts as `flushOne`, and the outstanding count grows by exactly
the number of lanes whose in-progress batch is non-empty. -/
theorem flushLoop_spec (lanes : List (ScanLaneState α)) (ocnt : Int) :
    flushLoop lanes ocnt = (lanes.map flushOne, ocnt + (nonemptyBatchCount lanes : Int)) := by
  induction lanes generalizing ocnt with
  | nil => simp [flushLoop, nonemptyBatchCount]
  | cons lane rest ih =>
    simp only [flushLoop, List.map]
    by_cases h : 0 < lane.batch.length
    · rw [if_pos h]
      have hcf := sendOrQueueBatch_count_free lane.ch ocnt lane.batch lane.outstanding
      have hc := sendOrQueueBatch_count lane.ch ocnt lane.batch lane.outstanding
      rw [ih, Prod.mk.injEq]
      refine ⟨?_, ?_⟩
      · simp only [flushOne, if_pos h]
        rw [hcf.1, hcf.2]
      · have hcnt : nonemptyBatchCount (lane :: rest) = nonemptyBatchCount rest + 1 := by
          simp [nonemptyBatchCount, List.countP_cons, h]
        rw [hc, hcnt]
        push_cast
        ring
    · rw [if_neg h]
      rw [ih, Prod.mk.injEq]
      refine ⟨?_, ?_⟩
      · simp [flushOne, h]
      · have hcnt : nonemptyBatchCount (lane :: rest) = nonemptyBatchCount rest := by
          simp [nonemptyBatchCount, List.countP_cons, h]
        rw [hcnt]

/-- A lane whose in-progress batch is empty is left untouched by the final
flush. -/
theorem flushOne_empty (lane : ScanLaneState α) (h : lane.batch = []) :
    flushOne lane = lane := by
  simp [flushOne, h]

/-- A lane whose in-progress batch is non-empty has that batch admitted by
the final flush: the batch is appended to the lane's send-log-plus-pending
sequence. -/
theorem flushOne_nonempty (lane : ScanLaneState α) (h : 0 < lane.batch.length) :
    (flushOne lane).ch.sent ++ (flushOne lane).outstanding
      = lane.ch.sent ++ lane.outstanding ++ [lane.batch] := by
  simp only [flushOne, if_pos h, sendOrQueueBatch]
  split
  · next hcond =>
      have ho : lane.outstanding = [] := List.length_eq_zero.mp hcond.1
      simp [DuplexChannel.sendToWorker, ho]
  · simp [List.append_assoc]

/-- Phase A never reads past a positive item-count limit: whenever it exits
normally having started at or below the limit, the final `itemsRead` is
still at or below the limit. -/
theorem phaseA_itemsRead_le {α : Type} (batchSize limit : Nat) (ixr : α → Nat) (olimit : Int) :
    ∀ (input : List α) (lanes : List (ScanLaneState α)) (ocnt : Int) (itemsRead : Nat)
      (sched : List (Option Nat)) (lanes1 : List (ScanLaneState α)) (ocnt1 : Int) (ir1 : Nat),
      0 < limit → itemsRead ≤ limit →
      phaseA batchSize limit ixr olimit lanes ocnt itemsRead input sched
        = PhaseAResult.done lanes1 ocnt1 ir1 →
      ir1 ≤ limit := by
  intro input
  induction input with
  | nil =>
    intro lanes ocnt itemsRead sched lanes1 ocnt1 ir1 hl hle h
    rw [phaseA.eq_def] at h
    by_cases hc : limit > 0 ∧ itemsRead = limit
    · rw [if_pos hc] at h
      injection h with h1 h2 h3
      omega
    · rw [if_neg hc] at h
      cases sched with
      | nil => exact PhaseAResult.noConfusion h
      | cons ev schedRest =>
        rcases hsel : selectStep lanes ocnt olimit ev with _ | ⟨lanes2, ocnt2⟩ <;>
          simp only [hsel] at h
        · exact PhaseAResult.noConfusion h
        · injection h with h1 h2 h3
          omega
  | cons item rest ih =>
    intro lanes ocnt itemsRead sched lanes1 ocnt1 ir1 hl hle h
    rw [phaseA.eq_def] at h
    by_cases hc : limit > 0 ∧ itemsRead = limit
    · rw [if_pos hc] at h
      injection h with h1 h2 h3
      omega
    · have hlt : itemsRead < limit := by omega
      rw [if_neg hc] at h
      cases sched with
      | nil => exact PhaseAResult.noConfusion h
      | cons ev schedRest =>
        rcases hsel : selectStep lanes ocnt olimit ev with _ | ⟨lanes2, ocnt2⟩ <;>
          simp only [hsel] at h
        · exact PhaseAResult.noConfusion h
        · rcases hidx : lanes2[ixr item]? with _ | lane <;>
            simp only [hidx] at h
          · exact PhaseAResult.noConfusion h
          · by_cases hbs : batchSize ≤ (lane.batch ++ [item]).length
            · rw [if_pos hbs] at h
              exact ih _ _ _ _ _ _ _ hl hlt h
            · rw [if_neg hbs] at h
              exact ih _ _ _ _ _ _ _ hl hlt h

/-! ### Claims -/

/-- Claim C1: per-lane FIFO.  For every sequence of events on one lane —
admits through `sendOrQueueBatch` interleaved with any number of releases
through `sendOutstandingBatchToWorker` and worker receives — the batches
placed on the lane's `toWorker` channel (the send log) followed by the
still-pending ones are exactly the admitted batches in admission order, so
deliveries happen in exactly the order of admission with no reordering,
whether a batch was queued or sent immediately. -/
theorem claim_C1_lane_fifo {α : Type} (cap : Nat) (t : List (LedgerOp α)) :
    (runLedger (initLedger α cap) t).ch.sent ++ (runLedger (initLedger α cap) t).pending
      = admittedList t := by
  have h := runLedger_sent_pending t (initLedger α cap)
  simpa [initLedger] using h

/-- Claim C2: starting from counter zero, after any interleaving of admits
and releases in which no prefix releases more than it admitted, the global
outstanding counter equals admits − releases, is never negative at any
prefix, and is exactly zero once every admitted batch has been released. -/
theorem claim_C2_outstanding_counter {α : Type} (cap : Nat) (t : List (LedgerOp α))
    (h : ∀ n, releaseCount (t.take n) ≤ admitCount (t.take n)) :
    (runLedger (initLedger α cap) t).count = (admitCount t : Int) - (releaseCount t : Int)
    ∧ (∀ n, 0 ≤ (runLedger (initLedger α cap) (t.take n)).count)
    ∧ (releaseCount t = admitCount t → (runLedger (initLedger α cap) t).count = 0) := by
  have key : ∀ u : List (LedgerOp α),
      (runLedger (initLedger α cap) u).count = (admitCount u : Int) - (releaseCount u : Int) := by
    intro u
    have h1 := runLedger_count u (initLedger α cap)
    simpa [initLedger] using h1
  refine ⟨key t, fun n => ?_, fun he => ?_⟩
  · rw [key (t.take n)]
    have h2 := h n
    omega
  · rw [key t, he]
    omega

/-- Witness for C2 at the concrete trace admit-then-release. -/
theorem claim_C2_witness :
    (runLedger (initLedger Nat 1) [LedgerOp.admitOp 0, LedgerOp.release]).count = 0 := by
  have h := claim_C2_outstanding_counter (α := Nat) 1 [LedgerOp.admitOp 0, LedgerOp.release]
    (fun n => by
      rcases n with _ | _ | n <;>
        simp [admitCount, releaseCount, List.take, List.countP_cons, List.countP_nil])
  exact h.2.2 (by decide)

/-- Counterexample to claim C3 as stated: with a full channel (capacity 1,
one batch in the buffer) and an empty pending queue, `sendOrQueueBatch`
appends the new batch to the pending list — nothing new is placed on the
`toWorker` channel — yet the global count is still incremented from 1 to 2.
So the count is not "incremented only when the Batch physically goes onto
the channel". -/
theorem claim_C3_counterexample :
    (sendOrQueueBatch (⟨1, [0], 0⟩ : DuplexChannel Nat) 1 7 []).2.1 = 2
    ∧ (sendOrQueueBatch (⟨1, [0], 0⟩ : DuplexChannel Nat) 1 7 []).1.sent = [0]
    ∧ (sendOrQueueBatch (⟨1, [0], 0⟩ : DuplexChannel Nat) 1 7 []).2.2 = [7] := by
  constructor
  · rfl
  · constructor <;> rfl

/-- Claim C3 amended: the global outstanding count is incremented exactly
once per batch admitted via `sendOrQueueBatch`, at admission time, whether
the batch is sent immediately or merely appended to the pending list, and
decremented exactly once per release; hence over any trace the count
changes by precisely admits − releases. -/
theorem claim_C3_amended :
    (∀ (α : Type) (ch : DuplexChannel α) (c : Int) (b : α) (q : List α),
      (sendOrQueueBatch ch c b q).2.1 = c + 1)
    ∧ (∀ (α : Type) (ch : DuplexChannel α) (c : Int) (q : List α),
      (sendOutstandingBatchToWorker ch c q).2.1 = c - 1)
    ∧ (∀ (α : Type) (s : LedgerState α) (t : List (LedgerOp α)),
      (runLedger s t).count = s.count + (admitCount t : Int) - (releaseCount t : Int)) := by
  exact ⟨fun _ => sendOrQueueBatch_count, fun _ => sendOutstandingBatchToWorker_count,
    fun _ s t => runLedger_count t s⟩

/-- Claim C5: `sendOrQueueBatch` increments the global counter
unconditionally; when the pending queue is empty and the `toWorker` channel
has free capacity it sends the batch immediately and leaves the queue
unchanged, and otherwise it performs no send and returns the queue with the
batch appended. -/
theorem claim_C5_admit {α : Type} (ch : DuplexChannel α) (c : Int) (b : α) (q : List α) :
    (sendOrQueueBatch ch c b q).2.1 = c + 1
    ∧ (q = [] → ch.toWorkerLen < ch.queueLen →
        (sendOrQueueBatch ch c b q).1.sent = ch.sent ++ [b]
        ∧ (sendOrQueueBatch ch c b q).2.2 = q)
    ∧ (¬(q = [] ∧ ch.toWorkerLen < ch.queueLen) →
        (sendOrQueueBatch ch c b q).1 = ch
        ∧ (sendOrQueueBatch ch c b q).2.2 = q ++ [b]) := by
  refine ⟨sendOrQueueBatch_count ch c b q, ?_, ?_⟩
  · intro hq hcap
    simp [sendOrQueueBatch, hq, hcap, DuplexChannel.sendToWorker]
  · intro hn
    have hcond : ¬(q.length = 0 ∧ ch.toWorkerLen < ch.queueLen) := by
      simpa [List.length_eq_zero] using hn
    simp only [sendOrQueueBatch]
    rw [if_neg hcond]
    exact ⟨rfl, rfl⟩

/-- Witness for C5 on a concrete empty-queue, free-capacity call and on a
concrete full-channel call. -/
theorem claim_C5_witness :
    (sendOrQueueBatch (⟨1, [], 0⟩ : DuplexChannel Nat) 0 5 []).2.1 = 1
    ∧ (sendOrQueueBatch (⟨1, [], 0⟩ : DuplexChannel Nat) 0 5 []).1.sent = [] ++ [5]
    ∧ (sendOrQueueBatch (⟨1, [], 0⟩ : DuplexChannel Nat) 0 5 []).2.2 = []
    ∧ (sendOrQueueBatch (⟨1, [9], 0⟩ : DuplexChannel Nat) 0 5 []).2.2 = [] ++ [5] := by
  have h1 := claim_C5_admit (⟨1, [], 0⟩ : DuplexChannel Nat) 0 5 []
  have h2 := claim_C5_admit (⟨1, [9], 0⟩ : DuplexChannel Nat) 0 5 []
  have h1s := h1.2.1 rfl (by decide)
  have h2s := h2.2.2 (by decide)
  exact ⟨h1.1, h1s.1, h1s.2, h2s.2⟩

/-- Claim C6: `sendOutstandingBatchToWorker` decrements the global counter by
exactly one; when the pending queue is non-empty it sends exactly its head
batch (one additional send on the channel) and returns the queue shortened
by one, and when the queue is empty it sends nothing and returns it
unchanged. -/
theorem claim_C6_release {α : Type} (ch : DuplexChannel α) (c : Int) (unsent : List α) :
    (sendOutstandingBatchToWorker ch c unsent).2.1 = c - 1
    ∧ (unsent = [] →
        (sendOutstandingBatchToWorker ch c unsent).1 = ch
        ∧ (sendOutstandingBatchToWorker ch c unsent).2.2 = [])
    ∧ (∀ b rest, unsent = b :: rest →
        (sendOutstandingBatchToWorker ch c unsent).1.sent = ch.sent ++ [b]
        ∧ (sendOutstandingBatchToWorker ch c unsent).2.2 = rest) := by
  refine ⟨sendOutstandingBatchToWorker_count ch c unsent, ?_, ?_⟩
  · intro hq
    simp [sendOutstandingBatchToWorker, hq]
  · intro b rest hq
    simp [sendOutstandingBatchToWorker, hq, DuplexChannel.sendToWorker]

/-- Witness for C6 on a concrete two-element queue and on the empty queue. -/
theorem claim_C6_witness :
    (sendOutstandingBatchToWorker (⟨100, [], 0⟩ : DuplexChannel Nat) 2 [4, 5]).2.1 = 1
    ∧ (sendOutstandingBatchToWorker (⟨100, [], 0⟩ : DuplexChannel Nat) 2 [4, 5]).1.sent = [] ++ [4]
    ∧ (sendOutstandingBatchToWorker (⟨100, [], 0⟩ : DuplexChannel Nat) 2 [4, 5]).2.2 = [5]
    ∧ (sendOutstandingBatchToWorker (⟨100, [], 0⟩ : DuplexChannel Nat) 0 []).2.2 = [] := by
  have h1 := claim_C6_release (⟨100, [], 0⟩ : DuplexChannel Nat) 2 [4, 5]
  have h2 := claim_C6_release (⟨100, [], 0⟩ : DuplexChannel Nat) 0 []
  have h1s := h1.2.2 4 [5] rfl
  exact ⟨by have := h1.1; omega, h1s.1, h1s.2, (h2.2.1 rfl).2⟩

/-- Counterexample to claim C4 as stated: a per-lane channel capacity of
zero (a non-positive capacity) does not abort.  `createDuplexChannel 0`
succeeds — Go's `make(chan T, 0)` simply creates an unbuffered channel and
the source performs no validation — and a scan over such a lane does not
panic: with `olimit = lanes * 0 * 3 = 0` the very first select already
excludes the default case, so the dispatcher blocks forever (deadlock,
modelled as `stuck`), which is not an immediate abort. -/
theorem claim_C4_counterexample :
    createDuplexChannel (List Nat) 0 = some ⟨0, [], 0⟩
    ∧ scanWithIndexer [(⟨0, [], 0⟩ : DuplexChannel (List Nat))] 1 0 [10]
        ConstantIndexer.GetIndex [none] [] = ScanOutcome.stuck
    ∧ (ScanOutcome.stuck : ScanOutcome Nat) ≠ ScanOutcome.panicked := by
  refine ⟨by decide, by decide, by decide⟩

/-- Claim C4 amended: a flush threshold (batch size) below one aborts
immediately (explicit panic before any work is dispatched), and a negative
channel capacity aborts (Go's `make` panics); but a zero channel capacity
is accepted — `createDuplexChannel 0` returns an unbuffered channel and the
dispatcher then deadlocks rather than aborting. -/
theorem claim_C4_amended :
    (∀ (α : Type) (channels : List (DuplexChannel (List α))) (bs limit : Nat)
        (input : List α) (ixr : α → Nat) (sA : List (Option Nat)) (sB : List Nat),
      bs < 1 →
      scanWithIndexer channels bs limit input ixr sA sB = ScanOutcome.panicked)
    ∧ (∀ (α : Type) (q : Int), q < 0 → createDuplexChannel α q = none)
    ∧ createDuplexChannel (List Nat) 0 = some ⟨0, [], 0⟩ := by
  refine ⟨?_, ?_, by decide⟩
  · intro α channels bs limit input ixr sA sB hbs
    simp only [scanWithIndexer]
    rw [if_pos hbs]
  · intro α q hq
    simp [createDuplexChannel, hq]

/-- Witness for the amended C4 at batch size 0 and capacity −1. -/
theorem claim_C4_witness :
    scanWithIndexer ([⟨1, [], 0⟩] : List (DuplexChannel (List Nat))) 0 0 [1, 2]
      ConstantIndexer.GetIndex [] [] = ScanOutcome.panicked
    ∧ createDuplexChannel Nat (-1) = none := by
  exact ⟨claim_C4_amended.1 Nat [⟨1, [], 0⟩] 0 0 [1, 2] ConstantIndexer.GetIndex [] []
      (by decide),
    claim_C4_amended.2.1 Nat (-1) (by decide)⟩

set_option maxHeartbeats 2000000 in
/-- Claim C7: the Phase B entry flush admits, for every lane, the
in-progress batch exactly when it holds at least one record — lanes with an
empty batch are untouched and no empty batch is ever admitted, while a
non-empty batch enters the lane's send-log-plus-pending sequence, and the
outstanding count rises by exactly the number of non-empty in-progress
batches.  Concretely, with flush threshold 2, three input records and the
constant-lane selector, Phase A admits exactly one 2-record batch (reading
all 3 records), the drain admits the trailing 1-record batch, and
`scanWithIndexer` returns 3. -/
theorem claim_C7_drain_flush :
    (∀ (α : Type) (lanes : List (ScanLaneState α)) (ocnt : Int),
      flushLoop lanes ocnt = (lanes.map flushOne, ocnt + (nonemptyBatchCount lanes : Int)))
    ∧ (∀ (α : Type) (lane : ScanLaneState α), lane.batch = [] → flushOne lane = lane)
    ∧ (∀ (α : Type) (lane : ScanLaneState α), 0 < lane.batch.length →
        (flushOne lane).ch.sent ++ (flushOne lane).outstanding
          = lane.ch.sent ++ lane.outstanding ++ [lane.batch])
    ∧ phaseA 2 0 ConstantIndexer.GetIndex 3 [⟨⟨1, [], 0⟩, [], []⟩] 0 0 [10, 20, 30]
        [none, none, none, none]
        = PhaseAResult.done [⟨⟨1, [[10, 20]], 0⟩, [30], []⟩] 1 3
    ∧ scanWithIndexer [⟨1, [], 0⟩] 2 0 [10, 20, 30] ConstantIndexer.GetIndex
        [none, none, none, none] [0, 0]
        = ScanOutcome.ok 3 [⟨⟨1, [[10, 20], [30]], 0⟩, [30], []⟩] := by
  refine ⟨fun _ => flushLoop_spec, fun _ => flushOne_empty, fun _ => flushOne_nonempty,
    ?_, ?_⟩
  · simp [scanWithIndexer, phaseA, selectStep, applyRelease, flushLoop, drainLoop,
      olimitOf, sendOrQueueBatch, sendOutstandingBatchToWorker, DuplexChannel.sendToWorker,
      DuplexChannel.toWorkerLen, ConstantIndexer.GetIndex]
  · simp [scanWithIndexer, phaseA, selectStep, applyRelease, flushLoop, drainLoop,
      olimitOf, sendOrQueueBatch, sendOutstandingBatchToWorker, DuplexChannel.sendToWorker,
      DuplexChannel.toWorkerLen, ConstantIndexer.GetIndex]

/-- Witness for C7 on a concrete empty-batch lane and a concrete
one-record-batch lane. -/
theorem claim_C7_witness :
    flushOne (⟨⟨1, [], 0⟩, [], []⟩ : ScanLaneState Nat) = ⟨⟨1, [], 0⟩, [], []⟩
    ∧ (flushOne (⟨⟨1, [], 0⟩, [7], []⟩ : ScanLaneState Nat)).ch.sent
        ++ (flushOne (⟨⟨1, [], 0⟩, [7], []⟩ : ScanLaneState Nat)).outstanding
      = [] ++ [] ++ [[7]] := by
  exact ⟨claim_C7_drain_flush.2.1 Nat ⟨⟨1, [], 0⟩, [], []⟩ rfl,
    claim_C7_drain_flush.2.2.1 Nat ⟨⟨1, [], 0⟩, [7], []⟩ (by decide)⟩

set_option maxHeartbeats 2000000 in
/-- Claim C8: `scanWithIndexer` returns the total count of records decoded,
and a positive item-count limit stops ingestion at the limit: Phase A never
reads past a positive limit, with limit 1 and 3 available records exactly
one is decoded and the scan returns 1, and limit 0 means unlimited — all 3
records are decoded and the scan returns 3. -/
theorem claim_C8_limit :
    (∀ (α : Type) (batchSize limit : Nat) (ixr : α → Nat) (olimit : Int)
        (input : List α) (lanes : List (ScanLaneState α)) (ocnt : Int) (itemsRead : Nat)
        (sched : List (Option Nat)) (lanes1 : List (ScanLaneState α)) (ocnt1 : Int)
        (ir1 : Nat),
      0 < limit → itemsRead ≤ limit →
      phaseA batchSize limit ixr olimit lanes ocnt itemsRead input sched
        = PhaseAResult.done lanes1 ocnt1 ir1 →
      ir1 ≤ limit)
    ∧ scanWithIndexer [⟨1, [], 0⟩] 1 1 [10, 20, 30] ConstantIndexer.GetIndex [none] [0]
        = ScanOutcome.ok 1 [⟨⟨1, [[10]], 0⟩, [], []⟩]
    ∧ scanWithIndexer [⟨1, [], 0⟩] 1 0 [10, 20, 30] ConstantIndexer.GetIndex
        [none, none, none, some 0] [0, 0]
        = ScanOutcome.ok 3 [⟨⟨1, [[10], [20], [30]], 0⟩, [], []⟩] := by
  refine ⟨fun α bs limit ixr olimit input => phaseA_itemsRead_le bs limit ixr olimit input,
    ?_, ?_⟩
  · simp [scanWithIndexer, phaseA, selectStep, applyRelease, flushLoop, drainLoop,
      olimitOf, sendOrQueueBatch, sendOutstandingBatchToWorker, DuplexChannel.sendToWorker,
      DuplexChannel.toWorkerLen, ConstantIndexer.GetIndex]
  · simp [scanWithIndexer, phaseA, selectStep, applyRelease, flushLoop, drainLoop,
      olimitOf, sendOrQueueBatch, sendOutstandingBatchToWorker, DuplexChannel.sendToWorker,
      DuplexChannel.toWorkerLen, ConstantIndexer.GetIndex]

/-- Witness for C8: the Phase A bound applied at a concrete run with
limit 1. -/
theorem claim_C8_witness : 0 < 1 ∧ (1 : Nat) ≤ 1 := by
  refine ⟨by decide, ?_⟩
  exact claim_C8_limit.1 Nat 1 1 ConstantIndexer.GetIndex 3 [10, 20, 30]
    [⟨⟨1, [], 0⟩, [], []⟩] 0 0 [none] [⟨⟨1, [[10]], 0⟩, [], []⟩] 1 1
    (by decide) (by decide)
    (by simp [scanWithIndexer, phaseA, selectStep, applyRelease, flushLoop, drainLoop,
      olimitOf, sendOrQueueBatch, sendOutstandingBatchToWorker, DuplexChannel.sendToWorker,
      DuplexChannel.toWorkerLen, ConstantIndexer.GetIndex])

set_option maxHeartbeats 2000000 in
/-- Claim C9: the outstanding-item limit is the number of lanes times the
capacity of the first lane's `toWorker` channel times 3; concretely, with
one lane of capacity 1 the limit is 3 — the fourth consecutive default
select is refused (the scan blocks) — while with capacity 2 the limit is 6
and the same run proceeds. -/
theorem claim_C9_olimit :
    (∀ (β : Type) (channels : List (DuplexChannel β)) (h : channels ≠ []),
      olimitOf channels = (channels.length : Int) * ((channels.head h).queueLen : Int) * 3)
    ∧ scanWithIndexer [(⟨1, [], 0⟩ : DuplexChannel (List Nat))] 1 0 [10, 20, 30, 40]
        ConstantIndexer.GetIndex [none, none, none, none] [] = ScanOutcome.stuck
    ∧ scanWithIndexer [(⟨2, [], 0⟩ : DuplexChannel (List Nat))] 1 0 [10, 20, 30, 40]
        ConstantIndexer.GetIndex [none, none, none, none, none] [0, 0, 0, 0]
        = ScanOutcome.ok 4 [⟨⟨2, [[10], [20], [30], [40]], 0⟩, [], []⟩] := by
  refine ⟨?_, ?_, ?_⟩
  · intro β channels h
    cases channels with
    | nil => exact absurd rfl h
    | cons c cs => simp [olimitOf]
  · simp [scanWithIndexer, phaseA, selectStep, applyRelease, flushLoop, drainLoop,
      olimitOf, sendOrQueueBatch, sendOutstandingBatchToWorker, DuplexChannel.sendToWorker,
      DuplexChannel.toWorkerLen, ConstantIndexer.GetIndex]
  · simp [scanWithIndexer, phaseA, selectStep, applyRelease, flushLoop, drainLoop,
      olimitOf, sendOrQueueBatch, sendOutstandingBatchToWorker, DuplexChannel.sendToWorker,
      DuplexChannel.toWorkerLen, ConstantIndexer.GetIndex]

/-- Witness for C9 at a concrete one-lane list of capacity 5. -/
theorem claim_C9_witness :
    olimitOf ([⟨5, [], 0⟩] : List (DuplexChannel (List Nat))) = 15 := by
  have h := claim_C9_olimit.1 (List Nat) [⟨5, [], 0⟩] (by decide)
  simpa using h

/-- Claim C10: `sendOutstandingBatchToWorker` decrements the counter
unconditionally, with no positivity check, for every channel and every
pending queue including the empty one; in particular at counter 0 it
produces −1 (as the package's own test expects).  Non-negativity therefore
rests entirely on callers never releasing more than they admitted. -/
theorem claim_C10_unconditional_decrement :
    (∀ (α : Type) (ch : DuplexChannel α) (c : Int) (unsent : List α),
      (sendOutstandingBatchToWorker ch c unsent).2.1 = c - 1)
    ∧ (sendOutstandingBatchToWorker (⟨100, [], 0⟩ : DuplexChannel Nat) 0 []).2.1 = -1
    ∧ (sendOutstandingBatchToWorker (⟨100, [], 0⟩ : DuplexChannel Nat) 0 [5]).2.1 = -1 := by
  refine ⟨fun _ => sendOutstandingBatchToWorker_count, by rfl, by rfl⟩

end Load
